import Mathlib

/-
Shallow embedding of nereid's request dispatch and transaction-retry
pipeline, translated from:

  * src/nereid/application.py
      - `Nereid.dispatch_request`   (routing check, automatic OPTIONS,
        cache invalidation, read-only tenant probe, retry loop with
        commit/rollback and lifecycle signals)
      - `Nereid._dispatch_request`  (language context, locale stripping,
        endpoint resolution, static vs instance method dispatch,
        forcing of lazy render results)
  * src/nereid/templating.py
      - `LazyRenderer` (a deferred render value; `unicode(lazy)` renders
        the template with its context)

Side effects of the Python code (transaction opens/closes, signal sends,
cache invalidation, instance construction, context push/pop) are made
observable as an explicit event trace `List Ev`.  Database nondeterminism
is modelled by passing the per-attempt observed behaviour of
`self._dispatch_request(req)` as an attempt-indexed function
`handler : Nat → List Ev × Outcome` and the per-attempt outcome of
`txn.cursor.commit()` as `ce : Nat → Option Exc`; the deterministic model
of `_dispatch_request` itself is `dispatch_request_inner`.

Python exception classes are modelled by the inductive `Exc`.  The
`except DatabaseOperationalError` clause matches exactly the constructor
`Exc.DatabaseOperationalError`.  The `KeyError` raised by `Pool().get`
on a missing model and the `AttributeError` raised by `getattr` on a
missing method are both modelled as `Exc.EndpointNotFound`; the
`KeyError` raised by `req.view_args.pop('active_id')` is modelled as
`Exc.MissingActiveId` (the spec's names for these resolver errors).
-/

namespace NereidModel

/-- Values carried in `view_args` (Python dict values: ids, strings, ...). -/
inductive Val : Type
| nat : Nat → Val
| str : String → Val
deriving DecidableEq

/-- `req.view_args`: a Python dict modelled as an association list with
unique keys. -/
abbrev ViewArgs := List (String × Val)

/-- Dict lookup (`va.get(k)` / `k in va`). -/
def lookupArg (k : String) : ViewArgs → Option Val
| [] => none
| (k2, v) :: rest => if k2 = k then some v else lookupArg k rest

/-- Dict key removal: the effect of `va.pop(k, ...)` on the mapping. -/
def removeKey (k : String) : ViewArgs → ViewArgs
| [] => []
| (k2, v) :: rest => if k2 = k then rest else (k2, v) :: removeKey k rest

/-- Helper for `endpoint.rsplit('.', 1)`: split a character list at its
LAST dot, returning (part before, part after), or `none` when the list
contains no dot. -/
def rsplitDotAux : List Char → Option (List Char × List Char)
| [] => none
| ch :: rest =>
  match rsplitDotAux rest with
  | some (m, f) => some (ch :: m, f)
  | none => if ch = '.' then some ([], rest) else none

/-- `s.rsplit('.', 1)` for a string containing a dot: `some (model, method)`
split at the last dot; `none` when there is no dot (in which case the
Python tuple unpacking `model, method = ...` raises `ValueError`). -/
def rsplitDot (s : String) : Option (String × String) :=
  match rsplitDotAux s.data with
  | some (m, f) => some (String.mk m, String.mk f)
  | none => none

/-- `endpoint.rsplit('.', 1)[0]`: the part before the last dot, or the
whole string when there is no dot (Python indexing `[0]` never fails). -/
def rsplitHead (s : String) : String :=
  match rsplitDot s with
  | some (m, _) => m
  | none => s

/-- Python exception classes reaching the dispatch pipeline. -/
inductive Exc : Type
| DatabaseOperationalError   -- the designated transient class
| TenantNotFound             -- Website.get_from_host failure
| EndpointNotFound           -- missing model (KeyError) / method (AttributeError)
| MissingActiveId            -- view_args.pop('active_id') KeyError
| ValueError                 -- tuple unpacking of a dotless endpoint
| NotFoundError              -- routing: no URL matched
| MethodNotAllowed           -- routing: method not allowed
| OtherError : Nat → Exc     -- any other application exception
deriving DecidableEq

/-- The value returned by a handler: either a `LazyRenderer` (template
name plus render context, from src/nereid/templating.py) or an already
final string. -/
inductive PyResult : Type
| lazy : String → ViewArgs → PyResult
| plain : String → PyResult
deriving DecidableEq

/-- Outcome of running a piece of Python code: normal return or raise. -/
inductive Outcome : Type
| ok : PyResult → Outcome
| exc : Exc → Outcome
deriving DecidableEq

/-- How the resolved method was invoked. `staticCall kwargs` is
`meth(**view_args)`; `instanceCall model id kwargs` is
`meth(model(id), **view_args)` after popping `active_id`. -/
inductive CallRecord : Type
| staticCall : ViewArgs → CallRecord
| instanceCall : String → Val → ViewArgs → CallRecord
deriving DecidableEq

/-- Observable events of one dispatch, in program order. -/
inductive Ev : Type
| cacheClean                         -- Cache.clean(self.database_name)
| roOpen : Nat → Bool → Ev           -- Transaction().start(db, user, readonly)
| roClose                            -- close of the read-only probe
| rwOpen : Nat → Nat → Ev            -- Transaction().start(db, user, context={company})
| sigStart                           -- transaction_start.send(self)
| sigStop                            -- transaction_stop.send(self)
| commit                             -- txn.cursor.commit()
| rollback                           -- txn.cursor.rollback()
| release                            -- the with-block releases the transaction
| ctxPush : String → Ev              -- Transaction().set_context(language=...)
| ctxPop                             -- exit of the set_context block
| mkInstance : String → Val → Ev     -- model(active_id) instance construction
| call : CallRecord → Ev             -- invocation of the resolved method
| forceLazy                          -- unicode(result) on a LazyRenderer
deriving DecidableEq

/-- Events that `_dispatch_request` can emit (everything inside the
per-attempt try block other than the commit). -/
def isInner : Ev → Bool
| Ev.ctxPush _ => true
| Ev.ctxPop => true
| Ev.mkInstance _ _ => true
| Ev.call _ => true
| Ev.forceLazy => true
| _ => false

/-- Count occurrences of one event in a trace. -/
def countEv (e : Ev) : List Ev → Nat
| [] => 0
| x :: xs => (if x = e then 1 else 0) + countEv e xs

/-- Count instance constructions (`model(active_id)`) in a trace. -/
def countMk : List Ev → Nat
| [] => 0
| Ev.mkInstance _ _ :: xs => countMk xs + 1
| _ :: xs => countMk xs

/-- Binding kind of a resolved callable, after Python 2 `im_self`
semantics: plain functions have no `im_self` attribute, classmethods have
a truthy `im_self` (the class), unbound instance methods have
`im_self = None`. -/
inductive MethKind : Type
| plainFunction
| classMethod
| instanceMethod
deriving DecidableEq

/-- The test `not hasattr(meth, 'im_self') or meth.im_self` from
`_dispatch_request`: true exactly for the static/class-level cases. -/
def boundToModel : MethKind → Bool
| MethKind.instanceMethod => false
| _ => true

/-- A resolvable callable: its binding kind and its behaviour as a
function of how it is invoked. -/
structure Meth : Type where
  kind : MethKind
  body : CallRecord → Outcome

/-- An ORM model in the registry: named methods. -/
structure Model : Type where
  methods : String → Option Meth

/-- The application together with its external collaborators:
`view_functions` (pre-registered handlers), `pool` (the ORM registry,
`Pool().get`), `get_from_host` (tenant lookup returning
`(application_user.id, company.id)` or raising), and `render`
(flask's `render_template`, the forcing of a `LazyRenderer`). -/
structure App : Type where
  view_functions : String → Option Meth
  pool : String → Option Model
  get_from_host : String → Except Exc (Nat × Nat)
  render : String → ViewArgs → String

/-- The request as seen by `dispatch_request`. -/
structure Req : Type where
  routing_exception : Option Exc     -- req.routing_exception (None = matched)
  provide_automatic_options : Bool   -- getattr(rule, 'provide_automatic_options', False)
  method : String                    -- req.method
  host : String                      -- req.host
  endpoint : String                  -- req.url_rule.endpoint
  view_args : ViewArgs               -- req.view_args
  nereid_website : Bool              -- truthiness of req.nereid_website
  localeLanguageCode : String        -- req.nereid_locale.language.code

/-- `language` computed at the top of `_dispatch_request`. -/
def effectiveLanguage (req : Req) : String :=
  if req.nereid_website then req.localeLanguageCode else "en_US"

/-- Endpoint resolution: registered handler first, else the dotted
`"model.method"` lookup `getattr(Pool().get(model), method)`. -/
def resolveMeth (app : App) (ep : String) : Except Exc Meth :=
  match app.view_functions ep with
  | some meth => Except.ok meth
  | none =>
    match rsplitDot ep with
    | none => Except.error Exc.ValueError
    | some (m, f) =>
      match app.pool m with
      | none => Except.error Exc.EndpointNotFound
      | some mdl =>
        match mdl.methods f with
        | none => Except.error Exc.EndpointNotFound
        | some meth => Except.ok meth

/-- The tail of `_dispatch_request`: `if isinstance(result, LazyRenderer):
result = unicode(result)`, then return.  A lazy value is rendered to a
final string (emitting `forceLazy`); anything else passes unchanged. -/
def finishCall (app : App) (evs : List Ev) : Outcome → List Ev × Outcome
| Outcome.ok (PyResult.lazy t ctx) =>
    (evs ++ [Ev.forceLazy], Outcome.ok (PyResult.plain (app.render t ctx)))
| Outcome.ok (PyResult.plain s) => (evs, Outcome.ok (PyResult.plain s))
| Outcome.exc e => (evs, Outcome.exc e)

/-- Invocation of the resolved method (`_dispatch_request` lines 354-362):
static/class-level methods get all view args as keywords; instance
methods re-derive the model from the endpoint, pop `active_id`, construct
one instance and pass it as first positional argument. -/
def callMeth (app : App) (ep : String) (meth : Meth) (va : ViewArgs) :
    List Ev × Outcome :=
  if boundToModel meth.kind then
    finishCall app [Ev.call (CallRecord.staticCall va)]
      (meth.body (CallRecord.staticCall va))
  else
    match app.pool (rsplitHead ep) with
    | none => ([], Outcome.exc Exc.EndpointNotFound)
    | some _ =>
      match lookupArg "active_id" va with
      | none => ([], Outcome.exc Exc.MissingActiveId)
      | some aid =>
        finishCall app
          [Ev.mkInstance (rsplitHead ep) aid,
           Ev.call (CallRecord.instanceCall (rsplitHead ep) aid
             (removeKey "active_id" va))]
          (meth.body (CallRecord.instanceCall (rsplitHead ep) aid
             (removeKey "active_id" va)))

/-- Body of the `with Transaction().set_context(language=...)` block:
pop `locale` from view args, resolve the endpoint, invoke. -/
def resolveAndCall (app : App) (req : Req) : List Ev × Outcome :=
  match resolveMeth app req.endpoint with
  | Except.error e => ([], Outcome.exc e)
  | Except.ok meth => callMeth app req.endpoint meth (removeKey "locale" req.view_args)

/-- Model of `Nereid._dispatch_request`: compute the language, run the
body inside the nested context scope.  The context is popped on every
path (the `with` block's exit), including when the body raises. -/
def dispatch_request_inner (app : App) (req : Req) : List Ev × Outcome :=
  (Ev.ctxPush (effectiveLanguage req) :: (resolveAndCall app req).fst ++ [Ev.ctxPop],
   (resolveAndCall app req).snd)

/-- What one iteration of the retry loop decides to do next:
return a value, let an exception propagate, or `continue`. -/
inductive StepRes : Type
| ret : PyResult → StepRes
| raised : Exc → StepRes
| retry : StepRes
deriving DecidableEq

/-- The two except clauses of `dispatch_request`:
`except DatabaseOperationalError: ... if count: continue; raise` and
`except Exception: ... raise`. -/
def excStep (e : Exc) (count : Nat) : StepRes :=
  if e = Exc.DatabaseOperationalError then
    if count ≠ 0 then StepRes.retry else StepRes.raised e
  else StepRes.raised e

/-- Trace of one loop iteration: open the read-write transaction, send
`transaction_start` inside the try, run the body (its events `body`),
then `last` (`commit` or `rollback`), then the `finally` clause's
`transaction_stop`, then the with-block's release. -/
def attemptTrace (u c : Nat) (body : List Ev) (last : Ev) : List Ev :=
  Ev.rwOpen u c :: Ev.sigStart :: body ++ [last, Ev.sigStop, Ev.release]

/-- One iteration of the retry loop (`dispatch_request` lines 307-329).
`h` is the observed behaviour of `self._dispatch_request(req)` this
attempt, `ce` the outcome of `txn.cursor.commit()` (reached only when
the body returned normally; `none` = commit succeeds).  On success:
commit, stop signal, release, return.  On any exception: rollback, stop
signal, release, then retry or re-raise per `excStep`. -/
def runAttempt (u c : Nat) (h : List Ev × Outcome) (ce : Option Exc)
    (count : Nat) : List Ev × StepRes :=
  match h.snd with
  | Outcome.ok r =>
    match ce with
    | none => (attemptTrace u c h.fst Ev.commit, StepRes.ret r)
    | some e => (attemptTrace u c h.fst Ev.rollback, excStep e count)
  | Outcome.exc e => (attemptTrace u c h.fst Ev.rollback, excStep e count)

/-- Result of a whole dispatch. -/
inductive DispatchResult : Type
| response : PyResult → DispatchResult
| optionsResponse : DispatchResult     -- make_default_options_response()
| raised : Exc → DispatchResult
deriving DecidableEq

/-- The retry loop `for count in range(int(CONFIG['retry']), -1, -1)`:
`count` is the Python loop variable (counting down to 0), `attempt` the
number of iterations already performed (indexing `handler` and `ce`).
`excStep e 0` never yields `retry` (Python's `if count:` is false on the
last iteration), so the `retry` branch at count 0 is unreachable. -/
def dispatchLoop (u c : Nat) (handler : Nat → List Ev × Outcome)
    (ce : Nat → Option Exc) : Nat → Nat → List Ev × DispatchResult
| 0, attempt =>
  (match runAttempt u c (handler attempt) (ce attempt) 0 with
   | (evs, StepRes.ret r) => (evs, DispatchResult.response r)
   | (evs, StepRes.raised e) => (evs, DispatchResult.raised e)
   | (evs, StepRes.retry) => (evs, DispatchResult.raised Exc.DatabaseOperationalError))
| count + 1, attempt =>
  (match runAttempt u c (handler attempt) (ce attempt) (count + 1) with
   | (evs, StepRes.ret r) => (evs, DispatchResult.response r)
   | (evs, StepRes.raised e) => (evs, DispatchResult.raised e)
   | (evs, StepRes.retry) =>
     (evs ++ (dispatchLoop u c handler ce count (attempt + 1)).fst,
      (dispatchLoop u c handler ce count (attempt + 1)).snd))

/-- Model of `Nereid.dispatch_request` (src/nereid/application.py lines
279-329).  In order: raise a recorded routing exception (before anything
else); automatic-OPTIONS short-circuit (before the cache is touched);
`Cache.clean`; the read-only tenant probe `Transaction().start(db, 0,
readonly=True)` resolving `(user, company)` from the host and closed
unconditionally; then the retry loop.  `retry` is `int(CONFIG['retry'])`
read at dispatch time; `handler`/`ce` are the per-attempt observed
behaviours of the body and the commit (database nondeterminism). -/
def dispatch_request (app : App) (req : Req) (retry : Nat)
    (handler : Nat → List Ev × Outcome) (ce : Nat → Option Exc) :
    List Ev × DispatchResult :=
  match req.routing_exception with
  | some e => ([], DispatchResult.raised e)
  | none =>
    if req.provide_automatic_options = true ∧ req.method = "OPTIONS" then
      ([], DispatchResult.optionsResponse)
    else
      match app.get_from_host req.host with
      | Except.error e =>
        ([Ev.cacheClean, Ev.roOpen 0 true, Ev.roClose], DispatchResult.raised e)
      | Except.ok (user, company) =>
        (Ev.cacheClean :: Ev.roOpen 0 true :: Ev.roClose ::
           (dispatchLoop user company handler ce retry 0).fst,
         (dispatchLoop user company handler ce retry 0).snd)

example : rsplitDot "sale.order.confirm" = some ("sale.order", "confirm") := by decide

example : rsplitDot "index" = none := by decide

example : rsplitHead "sale.order.confirm" = "sale.order" := by decide

example : rsplitHead "party" = "party" := by decide

example :
    removeKey "locale" [("locale", Val.str "en"), ("q", Val.str "widget")]
      = [("q", Val.str "widget")] := by decide

/-! ## Helper lemmas -/

theorem countEv_append (e : Ev) (l1 l2 : List Ev) :
    countEv e (l1 ++ l2) = countEv e l1 + countEv e l2 := by
  induction l1 with
  | nil => simp [countEv]
  | cons x xs ih => simp [countEv, ih]; omega

theorem countEv_zero_of_inner (e : Ev) (he : isInner e = false) :
    ∀ l : List Ev, l.all isInner = true → countEv e l = 0 := by
  intro l
  induction l with
  | nil => intro _; rfl
  | cons x xs ih =>
    intro h
    rw [List.all_cons, Bool.and_eq_true] at h
    have hx : ¬(x = e) := by
      intro hh
      subst hh
      rw [h.1] at he
      exact absurd he (by decide)
    simp [countEv, hx, ih h.2]

theorem countMk_append (l1 l2 : List Ev) :
    countMk (l1 ++ l2) = countMk l1 + countMk l2 := by
  induction l1 with
  | nil => simp [countMk]
  | cons x xs ih => cases x <;> (simp [countMk, ih]; try omega)

/-- Everything `_dispatch_request` emits is an inner event: it never
opens, commits, rolls back or releases the attempt transaction itself. -/
theorem dispatch_request_inner_all_inner (app : App) (req : Req) :
    ((dispatch_request_inner app req).fst.all isInner) = true := by
  have hfin : ∀ evs out, evs.all isInner = true →
      ((finishCall app evs out).fst.all isInner) = true := by
    intro evs out hevs
    cases out with
    | ok r =>
      cases r with
      | lazy t ctx => simp [finishCall, hevs, isInner]
      | plain s => simpa [finishCall] using hevs
    | exc e => simpa [finishCall] using hevs
  have hcall : ∀ ep meth va, ((callMeth app ep meth va).fst.all isInner) = true := by
    intro ep meth va
    unfold callMeth
    by_cases hb : boundToModel meth.kind = true
    · simp only [hb, if_true]
      exact hfin _ _ (by simp [isInner])
    · simp only [hb, if_false]
      cases app.pool (rsplitHead ep) with
      | none => rfl
      | some mdl =>
        cases lookupArg "active_id" va with
        | none => rfl
        | some aid => exact hfin _ _ (by simp [isInner])
  have hrc : ((resolveAndCall app req).fst.all isInner) = true := by
    unfold resolveAndCall
    cases resolveMeth app req.endpoint with
    | error e => rfl
    | ok meth => exact hcall _ _ _
  simp [dispatch_request_inner, List.all_cons, List.all_append, hrc, isInner]

/-- Unfolding of `dispatchLoop` when the attempt raises a non-transient
exception: rollback, stop signal, release, re-raise — no further
iteration, whatever `count` is. -/
theorem loop_nontransient (u c count a : Nat) (handler : Nat → List Ev × Outcome)
    (ce : Nat → Option Exc) (hevs : List Ev) (e : Exc)
    (hH : handler a = (hevs, Outcome.exc e))
    (hNT : e ≠ Exc.DatabaseOperationalError) :
    dispatchLoop u c handler ce count a =
      (attemptTrace u c hevs Ev.rollback, DispatchResult.raised e) := by
  have hstep : ∀ n, excStep e n = StepRes.raised e := by
    intro n; simp [excStep, hNT]
  cases count <;> simp [dispatchLoop, runAttempt, hH, hstep]

/-- On the last loop iteration (`count = 0`) every exception is
re-raised: Python's `if count:` guard is false. -/
theorem excStep_zero (e : Exc) : excStep e 0 = StepRes.raised e := by
  simp [excStep]

/-- Unfolding of `dispatchLoop` at count 0 when the attempt raises any
exception: rollback, stop signal, release, re-raise. -/
theorem loop_zero_exc (u c a : Nat) (handler : Nat → List Ev × Outcome)
    (ce : Nat → Option Exc) (hevs : List Ev) (e : Exc)
    (hH : handler a = (hevs, Outcome.exc e)) :
    dispatchLoop u c handler ce 0 a =
      (attemptTrace u c hevs Ev.rollback, DispatchResult.raised e) := by
  simp [dispatchLoop, runAttempt, hH, excStep_zero]

/-- Unfolding of `dispatchLoop` at count 0 when the body returns but the
commit itself raises: rollback and re-raise. -/
theorem loop_zero_commitFail (u c a : Nat) (handler : Nat → List Ev × Outcome)
    (ce : Nat → Option Exc) (hevs : List Ev) (r : PyResult) (e : Exc)
    (hH : handler a = (hevs, Outcome.ok r)) (hce : ce a = some e) :
    dispatchLoop u c handler ce 0 a =
      (attemptTrace u c hevs Ev.rollback, DispatchResult.raised e) := by
  simp [dispatchLoop, runAttempt, hH, hce, excStep_zero]

/-- Unfolding of `dispatchLoop` at count `n+1` when the attempt raises
the transient class: rollback, then `continue` into a fresh attempt with
the counter decremented. -/
theorem loop_transient_succ (u c n a : Nat) (handler : Nat → List Ev × Outcome)
    (ce : Nat → Option Exc) (hevs : List Ev)
    (hH : handler a = (hevs, Outcome.exc Exc.DatabaseOperationalError)) :
    dispatchLoop u c handler ce (n + 1) a =
      (attemptTrace u c hevs Ev.rollback ++
         (dispatchLoop u c handler ce n (a + 1)).fst,
       (dispatchLoop u c handler ce n (a + 1)).snd) := by
  simp [dispatchLoop, runAttempt, hH, excStep]

/-- Unfolding of `dispatchLoop` when the body returns but the commit
raises a non-transient exception: rollback and re-raise, no retry. -/
theorem loop_commitFail_nontransient (u c count a : Nat)
    (handler : Nat → List Ev × Outcome) (ce : Nat → Option Exc)
    (hevs : List Ev) (r : PyResult) (e : Exc)
    (hH : handler a = (hevs, Outcome.ok r)) (hce : ce a = some e)
    (hNT : e ≠ Exc.DatabaseOperationalError) :
    dispatchLoop u c handler ce count a =
      (attemptTrace u c hevs Ev.rollback, DispatchResult.raised e) := by
  have hstep : ∀ n, excStep e n = StepRes.raised e := by
    intro n; simp [excStep, hNT]
  cases count <;> simp [dispatchLoop, runAttempt, hH, hce, hstep]

/-- Unfolding of `dispatchLoop` at count `n+1` when the body returns but
the commit raises the transient class: rollback, then `continue` with the
counter decremented — the commit is inside the retried scope. -/
theorem loop_commitFail_transient_succ (u c n a : Nat)
    (handler : Nat → List Ev × Outcome) (ce : Nat → Option Exc)
    (hevs : List Ev) (r : PyResult)
    (hH : handler a = (hevs, Outcome.ok r))
    (hce : ce a = some Exc.DatabaseOperationalError) :
    dispatchLoop u c handler ce (n + 1) a =
      (attemptTrace u c hevs Ev.rollback ++
         (dispatchLoop u c handler ce n (a + 1)).fst,
       (dispatchLoop u c handler ce n (a + 1)).snd) := by
  simp [dispatchLoop, runAttempt, hH, hce, excStep]

/-- Unfolding of `dispatchLoop` when the body returns and the commit
succeeds: commit, stop signal, release, return the value. -/
theorem loop_success (u c count a : Nat) (handler : Nat → List Ev × Outcome)
    (ce : Nat → Option Exc) (hevs : List Ev) (r : PyResult)
    (hH : handler a = (hevs, Outcome.ok r)) (hce : ce a = none) :
    dispatchLoop u c handler ce count a =
      (attemptTrace u c hevs Ev.commit, DispatchResult.response r) := by
  cases count <;> simp [dispatchLoop, runAttempt, hH, hce]

/-- One loop iteration opens exactly one read-write transaction. -/
theorem countEv_attempt_rwOpen (u c : Nat) (body : List Ev) (last : Ev)
    (hb : body.all isInner = true) (hl : last = Ev.commit ∨ last = Ev.rollback) :
    countEv (Ev.rwOpen u c) (attemptTrace u c body last) = 1 := by
  rcases hl with h | h <;> subst h <;>
    simp [attemptTrace, countEv, countEv_append,
      countEv_zero_of_inner (Ev.rwOpen u c) rfl body hb]

/-- A failed iteration's trace holds exactly one rollback. -/
theorem countEv_attempt_rollback (u c : Nat) (body : List Ev)
    (hb : body.all isInner = true) :
    countEv Ev.rollback (attemptTrace u c body Ev.rollback) = 1 := by
  simp [attemptTrace, countEv, countEv_append,
    countEv_zero_of_inner Ev.rollback rfl body hb]

/-- A failed iteration's trace holds no commit. -/
theorem countEv_attempt_commit_zero (u c : Nat) (body : List Ev)
    (hb : body.all isInner = true) :
    countEv Ev.commit (attemptTrace u c body Ev.rollback) = 0 := by
  simp [attemptTrace, countEv, countEv_append,
    countEv_zero_of_inner Ev.commit rfl body hb]

/-- The retry loop never opens more than `N + 1` read-write
transactions, whatever the per-attempt outcomes are. -/
theorem loop_rwOpen_le (u c : Nat) (handler : Nat → List Ev × Outcome)
    (ce : Nat → Option Exc)
    (hInner : ∀ i, ((handler i).fst.all isInner) = true) :
    ∀ N a, countEv (Ev.rwOpen u c) (dispatchLoop u c handler ce N a).fst ≤ N + 1 := by
  intro N
  induction N with
  | zero =>
    intro a
    rcases hha : handler a with ⟨hevs, hout⟩
    have hb : hevs.all isInner = true := by
      have := hInner a; rw [hha] at this; exact this
    cases hout with
    | ok r =>
      cases hce : ce a with
      | none =>
        rw [loop_success u c 0 a handler ce hevs r hha hce]
        rw [countEv_attempt_rwOpen u c hevs Ev.commit hb (Or.inl rfl)]
      | some e =>
        rw [loop_zero_commitFail u c a handler ce hevs r e hha hce]
        rw [countEv_attempt_rwOpen u c hevs Ev.rollback hb (Or.inr rfl)]
    | exc e =>
      rw [loop_zero_exc u c a handler ce hevs e hha]
      rw [countEv_attempt_rwOpen u c hevs Ev.rollback hb (Or.inr rfl)]
  | succ n ih =>
    intro a
    rcases hha : handler a with ⟨hevs, hout⟩
    have hb : hevs.all isInner = true := by
      have := hInner a; rw [hha] at this; exact this
    have h1 : countEv (Ev.rwOpen u c) (attemptTrace u c hevs Ev.rollback) = 1 :=
      countEv_attempt_rwOpen u c hevs Ev.rollback hb (Or.inr rfl)
    cases hout with
    | ok r =>
      cases hce : ce a with
      | none =>
        rw [loop_success u c (n + 1) a handler ce hevs r hha hce]
        rw [countEv_attempt_rwOpen u c hevs Ev.commit hb (Or.inl rfl)]
        omega
      | some e =>
        by_cases he : e = Exc.DatabaseOperationalError
        · subst he
          rw [loop_commitFail_transient_succ u c n a handler ce hevs r hha hce]
          simp only [countEv_append, h1]
          have := ih (a + 1)
          omega
        · rw [loop_commitFail_nontransient u c (n + 1) a handler ce hevs r e hha hce he]
          rw [h1]; omega
    | exc e =>
      by_cases he : e = Exc.DatabaseOperationalError
      · subst he
        rw [loop_transient_succ u c n a handler ce hevs hha]
        simp only [countEv_append, h1]
        have := ih (a + 1)
        omega
      · rw [loop_nontransient u c (n + 1) a handler ce hevs e hha he]
        rw [h1]; omega

/-- When every attempt raises the transient class, the loop performs
exactly `N + 1` attempts, each rolled back, commits nothing, and finally
re-raises the transient error itself. -/
theorem loop_all_transient (u c : Nat) (handler : Nat → List Ev × Outcome)
    (ce : Nat → Option Exc)
    (hInner : ∀ i, ((handler i).fst.all isInner) = true)
    (hAll : ∀ i, (handler i).snd = Outcome.exc Exc.DatabaseOperationalError) :
    ∀ N a,
      (dispatchLoop u c handler ce N a).snd =
          DispatchResult.raised Exc.DatabaseOperationalError ∧
      countEv (Ev.rwOpen u c) (dispatchLoop u c handler ce N a).fst = N + 1 ∧
      countEv Ev.rollback (dispatchLoop u c handler ce N a).fst = N + 1 ∧
      countEv Ev.commit (dispatchLoop u c handler ce N a).fst = 0 := by
  intro N
  induction N with
  | zero =>
    intro a
    rcases hha : handler a with ⟨hevs, hout⟩
    have hb : hevs.all isInner = true := by
      have := hInner a; rw [hha] at this; exact this
    have hsnd := hAll a
    rw [hha] at hsnd
    simp only at hsnd
    subst hsnd
    rw [loop_zero_exc u c a handler ce hevs Exc.DatabaseOperationalError hha]
    exact ⟨rfl, countEv_attempt_rwOpen u c hevs Ev.rollback hb (Or.inr rfl),
      countEv_attempt_rollback u c hevs hb, countEv_attempt_commit_zero u c hevs hb⟩
  | succ n ih =>
    intro a
    rcases hha : handler a with ⟨hevs, hout⟩
    have hb : hevs.all isInner = true := by
      have := hInner a; rw [hha] at this; exact this
    have hsnd := hAll a
    rw [hha] at hsnd
    simp only at hsnd
    subst hsnd
    rw [loop_transient_succ u c n a handler ce hevs hha]
    have hrec := ih (a + 1)
    simp only [countEv_append]
    refine ⟨hrec.1, ?_, ?_, ?_⟩
    · rw [countEv_attempt_rwOpen u c hevs Ev.rollback hb (Or.inr rfl), hrec.2.1]
      omega
    · rw [countEv_attempt_rollback u c hevs hb, hrec.2.2.1]
      omega
    · rw [countEv_attempt_commit_zero u c hevs hb, hrec.2.2.2]

/-- Well-formed signal discipline: a trace is a sequence of attempt
blocks, each opening a read-write transaction, sending
`transaction_start` exactly once right after the open, running a body of
inner events (which can contain no signal sends), ending with a commit
or rollback, one `transaction_stop`, and the release — so per attempt
the stop signal fires exactly once, after the start and before the
release, on every outcome. -/
inductive SigBlocks : List Ev → Prop
| nil : SigBlocks []
| block (u c : Nat) (body : List Ev) (x : Ev) (rest : List Ev)
    (hbody : body.all isInner = true)
    (hx : x = Ev.commit ∨ x = Ev.rollback)
    (hrest : SigBlocks rest) :
    SigBlocks (Ev.rwOpen u c :: Ev.sigStart ::
      (body ++ x :: Ev.sigStop :: Ev.release :: rest))

/-- An attempt trace followed by more blocks is itself block-shaped. -/
theorem sigBlocks_attempt_append (u c : Nat) (body : List Ev) (x : Ev)
    (rest : List Ev) (hb : body.all isInner = true)
    (hx : x = Ev.commit ∨ x = Ev.rollback) (hr : SigBlocks rest) :
    SigBlocks (attemptTrace u c body x ++ rest) := by
  have hshape : attemptTrace u c body x ++ rest =
      Ev.rwOpen u c :: Ev.sigStart ::
        (body ++ x :: Ev.sigStop :: Ev.release :: rest) := by
    simp [attemptTrace]
  rw [hshape]
  exact SigBlocks.block u c body x rest hb hx hr

/-- A single attempt trace is block-shaped. -/
theorem sigBlocks_attempt (u c : Nat) (body : List Ev) (x : Ev)
    (hb : body.all isInner = true)
    (hx : x = Ev.commit ∨ x = Ev.rollback) :
    SigBlocks (attemptTrace u c body x) := by
  have := sigBlocks_attempt_append u c body x [] hb hx SigBlocks.nil
  simpa using this

/-- The whole retry-loop trace satisfies the signal discipline, whatever
the per-attempt outcomes are. -/
theorem loop_sigBlocks (u c : Nat) (handler : Nat → List Ev × Outcome)
    (ce : Nat → Option Exc)
    (hInner : ∀ i, ((handler i).fst.all isInner) = true) :
    ∀ N a, SigBlocks (dispatchLoop u c handler ce N a).fst := by
  intro N
  induction N with
  | zero =>
    intro a
    rcases hha : handler a with ⟨hevs, hout⟩
    have hb : hevs.all isInner = true := by
      have := hInner a; rw [hha] at this; exact this
    cases hout with
    | ok r =>
      cases hce : ce a with
      | none =>
        rw [loop_success u c 0 a handler ce hevs r hha hce]
        exact sigBlocks_attempt u c hevs Ev.commit hb (Or.inl rfl)
      | some e =>
        rw [loop_zero_commitFail u c a handler ce hevs r e hha hce]
        exact sigBlocks_attempt u c hevs Ev.rollback hb (Or.inr rfl)
    | exc e =>
      rw [loop_zero_exc u c a handler ce hevs e hha]
      exact sigBlocks_attempt u c hevs Ev.rollback hb (Or.inr rfl)
  | succ n ih =>
    intro a
    rcases hha : handler a with ⟨hevs, hout⟩
    have hb : hevs.all isInner = true := by
      have := hInner a; rw [hha] at this; exact this
    cases hout with
    | ok r =>
      cases hce : ce a with
      | none =>
        rw [loop_success u c (n + 1) a handler ce hevs r hha hce]
        exact sigBlocks_attempt u c hevs Ev.commit hb (Or.inl rfl)
      | some e =>
        by_cases he : e = Exc.DatabaseOperationalError
        · subst he
          rw [loop_commitFail_transient_succ u c n a handler ce hevs r hha hce]
          exact sigBlocks_attempt_append u c hevs Ev.rollback _ hb (Or.inr rfl) (ih (a + 1))
        · rw [loop_commitFail_nontransient u c (n + 1) a handler ce hevs r e hha hce he]
          exact sigBlocks_attempt u c hevs Ev.rollback hb (Or.inr rfl)
    | exc e =>
      by_cases he : e = Exc.DatabaseOperationalError
      · subst he
        rw [loop_transient_succ u c n a handler ce hevs hha]
        exact sigBlocks_attempt_append u c hevs Ev.rollback _ hb (Or.inr rfl) (ih (a + 1))
      · rw [loop_nontransient u c (n + 1) a handler ce hevs e hha he]
        exact sigBlocks_attempt u c hevs Ev.rollback hb (Or.inr rfl)

/-- The part of the endpoint before the last dot, when there is one. -/
theorem rsplitHead_of_rsplitDot (s m f : String) (h : rsplitDot s = some (m, f)) :
    rsplitHead s = m := by
  simp [rsplitHead, h]

/-- Resolution of a dotted endpoint fails with `EndpointNotFound` when
the model is missing from the pool or the method is missing from the
model. -/
theorem resolveMeth_notFound (app : App) (ep m f : String)
    (hvf : app.view_functions ep = none)
    (hsplit : rsplitDot ep = some (m, f))
    (hnone : Option.bind (app.pool m) (fun mdl => mdl.methods f) = none) :
    resolveMeth app ep = Except.error Exc.EndpointNotFound := by
  cases hp : app.pool m with
  | none => simp [resolveMeth, hvf, hsplit, hp]
  | some mdl =>
    rw [hp] at hnone
    have hm : mdl.methods f = none := hnone
    simp [resolveMeth, hvf, hsplit, hp, hm]

/-- Resolution of a dotted endpoint succeeds when model and method both
exist. -/
theorem resolveMeth_dotted_ok (app : App) (ep m f : String) (mdl : Model)
    (meth : Meth) (hvf : app.view_functions ep = none)
    (hsplit : rsplitDot ep = some (m, f))
    (hpool : app.pool m = some mdl) (hmeth : mdl.methods f = some meth) :
    resolveMeth app ep = Except.ok meth := by
  simp [resolveMeth, hvf, hsplit, hpool, hmeth]

/-- Unfolding of `callMeth` in the instance-method case when the model
exists and `active_id` is present. -/
theorem callMeth_instance (app : App) (ep : String) (meth : Meth)
    (va : ViewArgs) (aid : Val)
    (hk : boundToModel meth.kind = false)
    (mdl : Model) (hp : app.pool (rsplitHead ep) = some mdl)
    (ha : lookupArg "active_id" va = some aid) :
    callMeth app ep meth va =
      finishCall app
        [Ev.mkInstance (rsplitHead ep) aid,
         Ev.call (CallRecord.instanceCall (rsplitHead ep) aid
           (removeKey "active_id" va))]
        (meth.body (CallRecord.instanceCall (rsplitHead ep) aid
           (removeKey "active_id" va))) := by
  simp [callMeth, hk, hp, ha]

/-- `finishCall` never lets an unforced lazy value through. -/
theorem finishCall_ok_plain (app : App) (evs : List Ev) (out : Outcome)
    (r : PyResult) (h : (finishCall app evs out).snd = Outcome.ok r) :
    ∃ s, r = PyResult.plain s := by
  cases out with
  | ok pr =>
    cases pr with
    | lazy t ctx =>
      simp [finishCall] at h
      exact ⟨_, h.symm⟩
    | plain s =>
      simp [finishCall] at h
      exact ⟨s, h.symm⟩
  | exc e => simp [finishCall] at h

/-- `callMeth` never returns an unforced lazy value. -/
theorem callMeth_ok_plain (app : App) (ep : String) (meth : Meth)
    (va : ViewArgs) (r : PyResult)
    (h : (callMeth app ep meth va).snd = Outcome.ok r) :
    ∃ s, r = PyResult.plain s := by
  unfold callMeth at h
  by_cases hk : boundToModel meth.kind = true
  · rw [if_pos hk] at h
    exact finishCall_ok_plain app _ _ r h
  · rw [if_neg hk] at h
    cases hp : app.pool (rsplitHead ep) with
    | none => rw [hp] at h; simp at h
    | some mdl =>
      rw [hp] at h
      cases ha : lookupArg "active_id" va with
      | none => rw [ha] at h; simp at h
      | some aid =>
        rw [ha] at h
        exact finishCall_ok_plain app _ _ r h

/-! ## Claim theorems -/

/-- Claim C1: with configured retry budget `N` the retry loop performs at
most `N + 1` attempts; an attempt that raises the transient
`DatabaseOperationalError` rolls its transaction back and, while the
counter is positive, continues with a brand-new transaction; and when
every attempt raises the transient error, the loop performs exactly
`N + 1` attempts (each rolled back, none committed) and re-raises the
transient error unchanged. -/
theorem dispatch_retry_budget (u c N : Nat) (handler : Nat → List Ev × Outcome)
    (ce : Nat → Option Exc)
    (hInner : ∀ i, ((handler i).fst.all isInner) = true) :
    countEv (Ev.rwOpen u c) (dispatchLoop u c handler ce N 0).fst ≤ N + 1
    ∧ (∀ n a hevs,
        handler a = (hevs, Outcome.exc Exc.DatabaseOperationalError) →
        dispatchLoop u c handler ce (n + 1) a =
          (attemptTrace u c hevs Ev.rollback ++
             (dispatchLoop u c handler ce n (a + 1)).fst,
           (dispatchLoop u c handler ce n (a + 1)).snd))
    ∧ ((∀ i, (handler i).snd = Outcome.exc Exc.DatabaseOperationalError) →
        (dispatchLoop u c handler ce N 0).snd =
            DispatchResult.raised Exc.DatabaseOperationalError ∧
        countEv (Ev.rwOpen u c) (dispatchLoop u c handler ce N 0).fst = N + 1 ∧
        countEv Ev.rollback (dispatchLoop u c handler ce N 0).fst = N + 1 ∧
        countEv Ev.commit (dispatchLoop u c handler ce N 0).fst = 0) := by
  refine ⟨loop_rwOpen_le u c handler ce hInner N 0, ?_, ?_⟩
  · intro n a hevs hH
    exact loop_transient_succ u c n a handler ce hevs hH
  · intro hAll
    exact loop_all_transient u c handler ce hInner hAll N 0

theorem dispatch_retry_budget_witness :
    (dispatchLoop 7 9 (fun _ => ([], Outcome.exc Exc.DatabaseOperationalError))
        (fun _ => none) 2 0).snd =
      DispatchResult.raised Exc.DatabaseOperationalError ∧
    countEv (Ev.rwOpen 7 9)
        (dispatchLoop 7 9 (fun _ => ([], Outcome.exc Exc.DatabaseOperationalError))
          (fun _ => none) 2 0).fst = 3 ∧
    countEv Ev.commit
        (dispatchLoop 7 9 (fun _ => ([], Outcome.exc Exc.DatabaseOperationalError))
          (fun _ => none) 2 0).fst = 0 := by
  have h := dispatch_retry_budget 7 9 2
    (fun _ => ([], Outcome.exc Exc.DatabaseOperationalError)) (fun _ => none)
    (fun _ => rfl)
  have h2 := h.2.2 (fun _ => rfl)
  exact ⟨h2.1, h2.2.1, h2.2.2.2⟩

/-- Claim C2: on any attempt, with any number of attempts left in the
budget, an exception outside the designated transient class makes the
loop roll the attempt's transaction back and re-raise it immediately:
the whole remaining trace is that single attempt ending in a rollback
(so the rollback precedes the re-raise), with no commit event and no
further transaction opened. -/
theorem dispatch_nontransient_no_retry (u c count attempt : Nat)
    (handler : Nat → List Ev × Outcome) (ce : Nat → Option Exc)
    (hevs : List Ev) (e : Exc)
    (hH : handler attempt = (hevs, Outcome.exc e))
    (hNT : e ≠ Exc.DatabaseOperationalError)
    (hb : hevs.all isInner = true) :
    dispatchLoop u c handler ce count attempt =
      (attemptTrace u c hevs Ev.rollback, DispatchResult.raised e)
    ∧ countEv Ev.commit (attemptTrace u c hevs Ev.rollback) = 0
    ∧ countEv (Ev.rwOpen u c) (attemptTrace u c hevs Ev.rollback) = 1 :=
  ⟨loop_nontransient u c count attempt handler ce hevs e hH hNT,
   countEv_attempt_commit_zero u c hevs hb,
   countEv_attempt_rwOpen u c hevs Ev.rollback hb (Or.inr rfl)⟩

theorem dispatch_nontransient_no_retry_witness :
    dispatchLoop 4 5 (fun _ => ([], Outcome.exc (Exc.OtherError 13)))
        (fun _ => none) 3 0 =
      (attemptTrace 4 5 [] Ev.rollback, DispatchResult.raised (Exc.OtherError 13)) ∧
    countEv Ev.commit (attemptTrace 4 5 [] Ev.rollback) = 0 := by
  have h := dispatch_nontransient_no_retry 4 5 3 0
    (fun _ => ([], Outcome.exc (Exc.OtherError 13))) (fun _ => none)
    [] (Exc.OtherError 13) rfl (by decide) rfl
  exact ⟨h.1, h.2.1⟩

/-- Claim C5: whatever the per-attempt outcomes (success, transient
failure, any other exception), the retry-loop trace decomposes into
attempt blocks in which `transaction_start` is sent exactly once,
immediately after the read-write transaction opens, and
`transaction_stop` is sent exactly once, immediately before that
transaction is released — so stop always follows start, once per
attempt, on every outcome. -/
theorem dispatch_signal_discipline (u c N a : Nat)
    (handler : Nat → List Ev × Outcome) (ce : Nat → Option Exc)
    (hInner : ∀ i, ((handler i).fst.all isInner) = true) :
    SigBlocks (dispatchLoop u c handler ce N a).fst :=
  loop_sigBlocks u c handler ce hInner N a

theorem dispatch_signal_discipline_witness :
    SigBlocks (dispatchLoop 1 2
      (fun i => if i = 0 then ([], Outcome.exc Exc.DatabaseOperationalError)
                else ([], Outcome.ok (PyResult.plain "done")))
      (fun _ => none) 2 0).fst :=
  dispatch_signal_discipline 1 2 2 0
    (fun i => if i = 0 then ([], Outcome.exc Exc.DatabaseOperationalError)
              else ([], Outcome.ok (PyResult.plain "done")))
    (fun _ => none)
    (fun i => by by_cases hi : i = 0 <;> simp [hi])

/-- Claim C10: the commit sits inside the same try block as the handler
invocation: when the handler returns but `txn.cursor.commit()` raises
the transient `DatabaseOperationalError`, the attempt is rolled back
(no commit event) and, with budget remaining, retried on a fresh
transaction with the counter decremented — and on the last iteration the
error is re-raised — exactly as for a transient error from the handler. -/
theorem dispatch_commit_retry_scope (u c attempt : Nat)
    (handler : Nat → List Ev × Outcome) (ce : Nat → Option Exc)
    (hevs : List Ev) (r : PyResult)
    (hH : handler attempt = (hevs, Outcome.ok r))
    (hce : ce attempt = some Exc.DatabaseOperationalError) :
    dispatchLoop u c handler ce 0 attempt =
      (attemptTrace u c hevs Ev.rollback,
       DispatchResult.raised Exc.DatabaseOperationalError)
    ∧ ∀ n, dispatchLoop u c handler ce (n + 1) attempt =
        (attemptTrace u c hevs Ev.rollback ++
           (dispatchLoop u c handler ce n (attempt + 1)).fst,
         (dispatchLoop u c handler ce n (attempt + 1)).snd) :=
  ⟨loop_zero_commitFail u c attempt handler ce hevs r
     Exc.DatabaseOperationalError hH hce,
   fun n => loop_commitFail_transient_succ u c n attempt handler ce hevs r hH hce⟩

theorem dispatch_commit_retry_scope_witness :
    dispatchLoop 3 4 (fun _ => ([], Outcome.ok (PyResult.plain "v")))
        (fun i => if i = 0 then some Exc.DatabaseOperationalError else none) 0 0 =
      (attemptTrace 3 4 [] Ev.rollback,
       DispatchResult.raised Exc.DatabaseOperationalError) := by
  have h := dispatch_commit_retry_scope 3 4 0
    (fun _ => ([], Outcome.ok (PyResult.plain "v")))
    (fun i => if i = 0 then some Exc.DatabaseOperationalError else none)
    [] (PyResult.plain "v") rfl (by simp)
  exact h.1

/-- Claim C6: when the router recorded a routing failure, dispatch
raises exactly the recorded routing exception and its trace is empty:
no cache invalidation, no read-only tenant probe, no read-write
transaction and no lifecycle signal ever happens. -/
theorem dispatch_routing_failure (app : App) (req : Req) (retry : Nat)
    (handler : Nat → List Ev × Outcome) (ce : Nat → Option Exc) (e : Exc)
    (h : req.routing_exception = some e) :
    dispatch_request app req retry handler ce = ([], DispatchResult.raised e) := by
  simp [dispatch_request, h]

theorem dispatch_routing_failure_witness :
    dispatch_request
      { view_functions := fun _ => none, pool := fun _ => none,
        get_from_host := fun _ => Except.ok (1, 2), render := fun t _ => t }
      { routing_exception := some Exc.MethodNotAllowed,
        provide_automatic_options := false, method := "POST",
        host := "example.com", endpoint := "home", view_args := [],
        nereid_website := false, localeLanguageCode := "en" }
      3 (fun _ => ([], Outcome.ok (PyResult.plain "x"))) (fun _ => none) =
      ([], DispatchResult.raised Exc.MethodNotAllowed) :=
  dispatch_routing_failure _ _ 3 _ _ Exc.MethodNotAllowed rfl

/-- Claim C7: a request whose matched route provides automatic OPTIONS
support and whose method is OPTIONS short-circuits to the default
options response with an empty trace — no cache invalidation, no tenant
resolution and no transaction — for every application, in particular one
whose host resolves to no valid tenant. -/
theorem dispatch_options_shortcircuit (app : App) (req : Req) (retry : Nat)
    (handler : Nat → List Ev × Outcome) (ce : Nat → Option Exc)
    (h1 : req.routing_exception = none)
    (h2 : req.provide_automatic_options = true)
    (h3 : req.method = "OPTIONS") :
    dispatch_request app req retry handler ce =
      ([], DispatchResult.optionsResponse) := by
  simp [dispatch_request, h1, h2, h3]

theorem dispatch_options_shortcircuit_witness :
    dispatch_request
      { view_functions := fun _ => none, pool := fun _ => none,
        get_from_host := fun _ => Except.error Exc.TenantNotFound,
        render := fun t _ => t }
      { routing_exception := none, provide_automatic_options := true,
        method := "OPTIONS", host := "unknown-host.example", endpoint := "home",
        view_args := [], nereid_website := false, localeLanguageCode := "en" }
      3 (fun _ => ([], Outcome.ok (PyResult.plain "x"))) (fun _ => none) =
      ([], DispatchResult.optionsResponse) :=
  dispatch_options_shortcircuit _ _ 3 _ _ rfl rfl rfl

/-- Claim C8: past the routing and OPTIONS checks, tenant resolution for
the request host runs in a read-only probe transaction opened with user
id 0; on success `(user, company)` are extracted from the tenant and the
probe closes before the loop opens its first read-write transaction (the
`roClose` event precedes the whole loop trace); on failure the probe
still closes and nothing else runs. -/
theorem dispatch_tenant_probe (app : App) (req : Req) (retry : Nat)
    (handler : Nat → List Ev × Outcome) (ce : Nat → Option Exc)
    (h1 : req.routing_exception = none)
    (h2 : ¬(req.provide_automatic_options = true ∧ req.method = "OPTIONS")) :
    (∀ u c, app.get_from_host req.host = Except.ok (u, c) →
      dispatch_request app req retry handler ce =
        (Ev.cacheClean :: Ev.roOpen 0 true :: Ev.roClose ::
           (dispatchLoop u c handler ce retry 0).fst,
         (dispatchLoop u c handler ce retry 0).snd))
    ∧ (∀ e, app.get_from_host req.host = Except.error e →
        dispatch_request app req retry handler ce =
          ([Ev.cacheClean, Ev.roOpen 0 true, Ev.roClose],
           DispatchResult.raised e)) := by
  constructor
  · intro u c ht
    simp [dispatch_request, h1, h2, ht]
  · intro e ht
    simp [dispatch_request, h1, h2, ht]

theorem dispatch_tenant_probe_witness :
    dispatch_request
      { view_functions := fun _ => none, pool := fun _ => none,
        get_from_host := fun h => if h = "shop.example.com" then
            Except.ok (10, 20) else Except.error Exc.TenantNotFound,
        render := fun t _ => t }
      { routing_exception := none, provide_automatic_options := false,
        method := "GET", host := "shop.example.com", endpoint := "home",
        view_args := [], nereid_website := true, localeLanguageCode := "en" }
      0 (fun _ => ([], Outcome.ok (PyResult.plain "body"))) (fun _ => none) =
      (Ev.cacheClean :: Ev.roOpen 0 true :: Ev.roClose ::
         (dispatchLoop 10 20 (fun _ => ([], Outcome.ok (PyResult.plain "body")))
           (fun _ => none) 0 0).fst,
       (dispatchLoop 10 20 (fun _ => ([], Outcome.ok (PyResult.plain "body")))
         (fun _ => none) 0 0).snd) := by
  have h := dispatch_tenant_probe
    { view_functions := fun _ => none, pool := fun _ => none,
      get_from_host := fun h => if h = "shop.example.com" then
          Except.ok (10, 20) else Except.error Exc.TenantNotFound,
      render := fun t _ => t }
    { routing_exception := none, provide_automatic_options := false,
      method := "GET", host := "shop.example.com", endpoint := "home",
      view_args := [], nereid_website := true, localeLanguageCode := "en" }
    0 (fun _ => ([], Outcome.ok (PyResult.plain "body"))) (fun _ => none)
    rfl (by simp)
  exact h.1 10 20 (by simp)

/-- Claim C3: for a dotted endpoint whose model or method is missing
from the registry, `_dispatch_request` raises `EndpointNotFound` (the
language context is still popped); for a resolved instance-level method
whose view args lack `active_id`, it raises `MissingActiveId`; and both
errors, being outside the transient class, make the retry loop roll the
attempt's transaction back and re-raise without any further attempt. -/
theorem dispatch_resolver_errors (app : App) (req : Req) :
    (app.view_functions req.endpoint = none →
      ∀ m f, rsplitDot req.endpoint = some (m, f) →
        Option.bind (app.pool m) (fun mdl => mdl.methods f) = none →
        dispatch_request_inner app req =
          ([Ev.ctxPush (effectiveLanguage req), Ev.ctxPop],
           Outcome.exc Exc.EndpointNotFound))
    ∧ (∀ meth, resolveMeth app req.endpoint = Except.ok meth →
        boundToModel meth.kind = false →
        ∀ mdl, app.pool (rsplitHead req.endpoint) = some mdl →
        lookupArg "active_id" (removeKey "locale" req.view_args) = none →
        dispatch_request_inner app req =
          ([Ev.ctxPush (effectiveLanguage req), Ev.ctxPop],
           Outcome.exc Exc.MissingActiveId))
    ∧ (∀ e, (dispatch_request_inner app req).snd = Outcome.exc e →
        (e = Exc.EndpointNotFound ∨ e = Exc.MissingActiveId) →
        ∀ u c count attempt ce,
          dispatchLoop u c (fun _ => dispatch_request_inner app req) ce count attempt =
            (attemptTrace u c (dispatch_request_inner app req).fst Ev.rollback,
             DispatchResult.raised e)) := by
  refine ⟨?_, ?_, ?_⟩
  · intro hvf m f hsplit hnone
    have hres := resolveMeth_notFound app req.endpoint m f hvf hsplit hnone
    simp [dispatch_request_inner, resolveAndCall, hres]
  · intro meth hres hk mdl hp ha
    simp [dispatch_request_inner, resolveAndCall, hres, callMeth, hk, hp, ha]
  · intro e hsnd hor u c count attempt ce
    have hne : e ≠ Exc.DatabaseOperationalError := by
      rcases hor with h | h <;> subst h <;> intro hcon <;> cases hcon
    have hH : (fun _ : Nat => dispatch_request_inner app req) attempt =
        ((dispatch_request_inner app req).fst, Outcome.exc e) := by
      show dispatch_request_inner app req = _
      rw [← hsnd]
    exact loop_nontransient u c count attempt
      (fun _ => dispatch_request_inner app req) ce
      (dispatch_request_inner app req).fst e hH hne

/-- A registry with no models and no registered handlers. -/
def w3app : App :=
  { view_functions := fun _ => none, pool := fun _ => none,
    get_from_host := fun _ => Except.ok (1, 2), render := fun t _ => t }

/-- A request for a dotted endpoint over the empty registry. -/
def w3req : Req :=
  { routing_exception := none, provide_automatic_options := false,
    method := "GET", host := "example.com", endpoint := "sale.order.confirm",
    view_args := [], nereid_website := false, localeLanguageCode := "en" }

theorem dispatch_resolver_errors_witness :
    dispatch_request_inner w3app w3req =
      ([Ev.ctxPush "en_US", Ev.ctxPop], Outcome.exc Exc.EndpointNotFound) ∧
    dispatchLoop 1 2 (fun _ => dispatch_request_inner w3app w3req)
        (fun _ => none) 3 0 =
      (attemptTrace 1 2 [Ev.ctxPush "en_US", Ev.ctxPop] Ev.rollback,
       DispatchResult.raised Exc.EndpointNotFound) := by
  have h := dispatch_resolver_errors w3app w3req
  have h1 := h.1 rfl "sale.order" "confirm" rfl rfl
  have h3 := h.2.2 Exc.EndpointNotFound (by rw [h1]) (Or.inl rfl)
    1 2 3 0 (fun _ => none)
  rw [h1] at h3
  exact ⟨h1, h3⟩

/-- Claim C4: for a dotted endpoint resolved through the registry (not a
pre-registered handler), a model-bound (static or class-level) method is
invoked with all remaining view args as keywords and no instance handle
is ever constructed, while an instance-level method gets `active_id`
popped, exactly one in-transaction instance handle constructed for that
id, and is invoked with the handle first and the remaining view args as
keywords. -/
theorem dispatch_method_call (app : App) (req : Req) (m f : String)
    (mdl : Model) (meth : Meth)
    (hvf : app.view_functions req.endpoint = none)
    (hsplit : rsplitDot req.endpoint = some (m, f))
    (hpool : app.pool m = some mdl)
    (hmeth : mdl.methods f = some meth) :
    (boundToModel meth.kind = true →
      ∃ tail, (dispatch_request_inner app req).fst =
          Ev.ctxPush (effectiveLanguage req) ::
            Ev.call (CallRecord.staticCall (removeKey "locale" req.view_args)) ::
              tail ∧
        countMk (dispatch_request_inner app req).fst = 0)
    ∧ (boundToModel meth.kind = false →
        ∀ aid, lookupArg "active_id" (removeKey "locale" req.view_args) = some aid →
        ∃ tail, (dispatch_request_inner app req).fst =
            Ev.ctxPush (effectiveLanguage req) :: Ev.mkInstance m aid ::
              Ev.call (CallRecord.instanceCall m aid
                (removeKey "active_id" (removeKey "locale" req.view_args))) ::
                tail ∧
          countMk (dispatch_request_inner app req).fst = 1) := by
  have hres := resolveMeth_dotted_ok app req.endpoint m f mdl meth hvf hsplit hpool hmeth
  constructor
  · intro hk
    cases hb : meth.body (CallRecord.staticCall (removeKey "locale" req.view_args)) with
    | ok pr =>
      cases pr with
      | lazy t ctx =>
        refine ⟨[Ev.forceLazy, Ev.ctxPop], ?_, ?_⟩ <;>
          simp [dispatch_request_inner, resolveAndCall, hres, callMeth, hk,
            finishCall, hb, countMk]
      | plain s =>
        refine ⟨[Ev.ctxPop], ?_, ?_⟩ <;>
          simp [dispatch_request_inner, resolveAndCall, hres, callMeth, hk,
            finishCall, hb, countMk]
    | exc e =>
      refine ⟨[Ev.ctxPop], ?_, ?_⟩ <;>
        simp [dispatch_request_inner, resolveAndCall, hres, callMeth, hk,
          finishCall, hb, countMk]
  · intro hk aid ha
    have hm : rsplitHead req.endpoint = m := rsplitHead_of_rsplitDot _ _ _ hsplit
    have hp2 : app.pool (rsplitHead req.endpoint) = some mdl := by
      rw [hm]; exact hpool
    have hc := callMeth_instance app req.endpoint meth
      (removeKey "locale" req.view_args) aid hk mdl hp2 ha
    rw [hm] at hc
    cases hb : meth.body (CallRecord.instanceCall m aid
        (removeKey "active_id" (removeKey "locale" req.view_args))) with
    | ok pr =>
      cases pr with
      | lazy t ctx =>
        refine ⟨[Ev.forceLazy, Ev.ctxPop], ?_, ?_⟩ <;>
          simp [dispatch_request_inner, resolveAndCall, hres, hc,
            finishCall, hb, countMk]
      | plain s =>
        refine ⟨[Ev.ctxPop], ?_, ?_⟩ <;>
          simp [dispatch_request_inner, resolveAndCall, hres, hc,
            finishCall, hb, countMk]
    | exc e =>
      refine ⟨[Ev.ctxPop], ?_, ?_⟩ <;>
        simp [dispatch_request_inner, resolveAndCall, hres, hc,
          finishCall, hb, countMk]

/-- An instance-level method (`im_self` present and None). -/
def w4methConfirm : Meth :=
  ⟨MethKind.instanceMethod, fun _ => Outcome.ok (PyResult.plain "confirmed")⟩

/-- A class-level method (truthy `im_self`). -/
def w4methSearch : Meth :=
  ⟨MethKind.classMethod, fun _ => Outcome.ok (PyResult.plain "results")⟩

/-- The `sale.order` model with one instance and one class method. -/
def w4model : Model :=
  ⟨fun f => if f = "confirm" then some w4methConfirm
    else if f = "search" then some w4methSearch else none⟩

/-- A registry holding only `sale.order`. -/
def w4app : App :=
  { view_functions := fun _ => none,
    pool := fun s => if s = "sale.order" then some w4model else none,
    get_from_host := fun _ => Except.ok (1, 2), render := fun t _ => t }

/-- The spec's instance-endpoint example request. -/
def w4reqConfirm : Req :=
  { routing_exception := none, provide_automatic_options := false,
    method := "GET", host := "example.com", endpoint := "sale.order.confirm",
    view_args := [("active_id", Val.nat 42), ("active_id_extra", Val.str "x")],
    nereid_website := false, localeLanguageCode := "en" }

/-- The spec's static-endpoint example request. -/
def w4reqSearch : Req :=
  { routing_exception := none, provide_automatic_options := false,
    method := "GET", host := "example.com", endpoint := "sale.order.search",
    view_args := [("q", Val.str "widget")],
    nereid_website := false, localeLanguageCode := "en" }

theorem dispatch_method_call_witness :
    (∃ tail, (dispatch_request_inner w4app w4reqConfirm).fst =
        Ev.ctxPush "en_US" :: Ev.mkInstance "sale.order" (Val.nat 42) ::
          Ev.call (CallRecord.instanceCall "sale.order" (Val.nat 42)
            [("active_id_extra", Val.str "x")]) :: tail ∧
      countMk (dispatch_request_inner w4app w4reqConfirm).fst = 1) ∧
    (∃ tail, (dispatch_request_inner w4app w4reqSearch).fst =
        Ev.ctxPush "en_US" ::
          Ev.call (CallRecord.staticCall [("q", Val.str "widget")]) :: tail ∧
      countMk (dispatch_request_inner w4app w4reqSearch).fst = 0) := by
  constructor
  · have h := dispatch_method_call w4app w4reqConfirm "sale.order" "confirm"
      w4model w4methConfirm rfl rfl rfl rfl
    exact h.2 rfl (Val.nat 42) rfl
  · have h := dispatch_method_call w4app w4reqSearch "sale.order" "search"
      w4model w4methSearch rfl rfl rfl rfl
    exact h.1 rfl

/-- Claim C9: `_dispatch_request` never returns an unforced lazy value;
when the invoked method returns a `LazyRenderer`, the pipeline forces it
to the rendered final string while the nested language context is still
open (the `forceLazy` event precedes `ctxPop`) and, at the attempt
level, before the transaction's commit and release; a non-lazy result is
returned unchanged with no forcing event. -/
theorem dispatch_lazy_forcing (app : App) (req : Req) :
    (∀ r, (dispatch_request_inner app req).snd = Outcome.ok r →
      ∃ s, r = PyResult.plain s)
    ∧ (∀ meth, resolveMeth app req.endpoint = Except.ok meth →
        boundToModel meth.kind = true →
        (∀ t ctx,
          meth.body (CallRecord.staticCall (removeKey "locale" req.view_args)) =
              Outcome.ok (PyResult.lazy t ctx) →
          dispatch_request_inner app req =
            ([Ev.ctxPush (effectiveLanguage req),
              Ev.call (CallRecord.staticCall (removeKey "locale" req.view_args)),
              Ev.forceLazy, Ev.ctxPop],
             Outcome.ok (PyResult.plain (app.render t ctx))) ∧
          (∀ u c count,
            runAttempt u c (dispatch_request_inner app req) none count =
              (attemptTrace u c
                [Ev.ctxPush (effectiveLanguage req),
                 Ev.call (CallRecord.staticCall (removeKey "locale" req.view_args)),
                 Ev.forceLazy, Ev.ctxPop] Ev.commit,
               StepRes.ret (PyResult.plain (app.render t ctx)))))
        ∧ (∀ s,
            meth.body (CallRecord.staticCall (removeKey "locale" req.view_args)) =
                Outcome.ok (PyResult.plain s) →
            dispatch_request_inner app req =
              ([Ev.ctxPush (effectiveLanguage req),
                Ev.call (CallRecord.staticCall (removeKey "locale" req.view_args)),
                Ev.ctxPop],
               Outcome.ok (PyResult.plain s)))) := by
  constructor
  · intro r h
    have h2 : (resolveAndCall app req).snd = Outcome.ok r := h
    unfold resolveAndCall at h2
    cases hres : resolveMeth app req.endpoint with
    | error e => rw [hres] at h2; cases h2
    | ok meth =>
      rw [hres] at h2
      exact callMeth_ok_plain app req.endpoint meth _ r h2
  · intro meth hres hk
    constructor
    · intro t ctx hb
      have h1 : dispatch_request_inner app req =
          ([Ev.ctxPush (effectiveLanguage req),
            Ev.call (CallRecord.staticCall (removeKey "locale" req.view_args)),
            Ev.forceLazy, Ev.ctxPop],
           Outcome.ok (PyResult.plain (app.render t ctx))) := by
        simp [dispatch_request_inner, resolveAndCall, hres, callMeth, hk,
          finishCall, hb]
      refine ⟨h1, ?_⟩
      intro u c count
      rw [h1]
      simp [runAttempt]
    · intro s hb
      simp [dispatch_request_inner, resolveAndCall, hres, callMeth, hk,
        finishCall, hb]

/-- A registered view function returning a `LazyRenderer`. -/
def w9meth : Meth :=
  ⟨MethKind.plainFunction,
   fun _ => Outcome.ok (PyResult.lazy "home.html" [("a", Val.nat 1)])⟩

/-- An application whose `home` endpoint returns a lazy value and whose
renderer tags the template it rendered. -/
def w9app : App :=
  { view_functions := fun s => if s = "home" then some w9meth else none,
    pool := fun _ => none,
    get_from_host := fun _ => Except.ok (1, 2),
    render := fun t _ => String.append "rendered:" t }

/-- A request hitting the `home` endpoint. -/
def w9req : Req :=
  { routing_exception := none, provide_automatic_options := false,
    method := "GET", host := "example.com", endpoint := "home",
    view_args := [], nereid_website := false, localeLanguageCode := "en" }

theorem dispatch_lazy_forcing_witness :
    dispatch_request_inner w9app w9req =
      ([Ev.ctxPush "en_US", Ev.call (CallRecord.staticCall []),
        Ev.forceLazy, Ev.ctxPop],
       Outcome.ok (PyResult.plain "rendered:home.html")) ∧
    runAttempt 1 2 (dispatch_request_inner w9app w9req) none 0 =
      (attemptTrace 1 2 [Ev.ctxPush "en_US", Ev.call (CallRecord.staticCall []),
        Ev.forceLazy, Ev.ctxPop] Ev.commit,
       StepRes.ret (PyResult.plain "rendered:home.html")) := by
  have h := (dispatch_lazy_forcing w9app w9req).2 w9meth rfl rfl
  have hl := h.1 "home.html" [("a", Val.nat 1)] rfl
  exact ⟨hl.1, hl.2 1 2 0⟩

end NereidModel
